import Mathlib

/-!
Verification development for the ComfyUI-LLM-Client repository.

The repository ships one node class, QwenSimpleClient (src/nodes.py), a plain
HTTP client for a remote text-expansion service.  This file gives a shallow
embedding of that class: the class-level session cache, the session factory
with its mounted retry adapters, the URL validator on top of a model of the
standard-library urlparse, and the send_request method as a total function
over an explicit transport outcome.  Python floats are modelled as rationals
(the code performs no float arithmetic: numeric values are only carried into
JSON and compared with zero by truthiness), and Python exceptions raised by
the transport are modelled as constructors of an outcome type.

The secure-codec component described by the repository documentation
(compress-then-encrypt envelopes) is not present in src/; it is modelled from
the specification in a later section, clearly marked.
-/

/-! ## JSON values

Model of the values produced by response.json() and passed to json= in a
requests call.  Numbers are modelled as rationals (Python ints and floats). -/

inductive JsonVal where
  | jnull
  | jbool (b : Bool)
  | jnum (q : Rat)
  | jstr (s : String)
  | jarr (xs : List JsonVal)
  | jobj (fields : List (String × JsonVal))

/-- Python truthiness (bool(v)) on JSON values: None, False, 0, "", [] and
the empty dict are falsy, everything else truthy. -/
def pyTruthy : JsonVal → Bool
  | .jnull => false
  | .jbool b => b
  | .jnum q => !(q = 0 : Bool)
  | .jstr s => !(s = "" : Bool)
  | .jarr xs => !xs.isEmpty
  | .jobj fs => !fs.isEmpty

/-- Python len(v) on JSON values: defined for str, list and dict, a TypeError
(modelled as none) for None, bool and numbers. -/
def pyLen : JsonVal → Option Nat
  | .jstr s => some s.length
  | .jarr xs => some xs.length
  | .jobj fs => some fs.length
  | _ => none

/-- dict.get(k, default) when the parsed JSON is a dict; an AttributeError
(modelled as error) when it is any other JSON value. -/
def jsonGet (j : JsonVal) (k : String) (dflt : JsonVal) : Except String JsonVal :=
  match j with
  | .jobj fields => .ok ((List.lookup k fields).getD dflt)
  | _ => .error "AttributeError: get"

/-! ## Python string helpers used by send_request -/

/-- Characters stripped by Python str.strip() (ASCII whitespace). -/
def pyIsSpace (c : Char) : Bool :=
  c = ' ' || c = '\t' || c = '\n' || c = '\r' || c = '\x0b' || c = '\x0c'

/-- Python str.strip(): drop whitespace from both ends. -/
def pyStrip (s : String) : String :=
  String.mk (((s.data.dropWhile pyIsSpace).reverse.dropWhile pyIsSpace).reverse)

/-- Python str.rstrip("/"): drop trailing slashes. -/
def pyRstripSlash (s : String) : String :=
  String.mk ((s.data.reverse.dropWhile (fun c => c = '/')).reverse)

/-! ## Session cache and session factory (class variables of QwenSimpleClient,
_get_session, src/nodes.py lines 16-103) -/

/-- The urllib3 Retry object built in _get_session (src/nodes.py lines 90-95):
Retry(total=3, backoff_factor=0.3, status_forcelist=[500,502,503,504],
allowed_methods=["POST"]). -/
structure RetryConfig where
  total : Nat
  backoffFactor : Rat
  statusForcelist : List Nat
  allowedMethods : List String
deriving DecidableEq

/-- The retry configuration _get_session mounts on every fresh session. -/
def defaultRetries : RetryConfig :=
  { total := 3, backoffFactor := 3/10,
    statusForcelist := [500, 502, 503, 504], allowedMethods := ["POST"] }

/-- A requests.Session object.  The id field models Python object identity
(each call to requests.Session() yields a distinct object); retries models the
HTTPAdapter(max_retries=...) mounted for both the https:// and http://
schemes. -/
structure HttpSession where
  id : Nat
  retries : RetryConfig
deriving DecidableEq

/-- The class-level mutable state of QwenSimpleClient: _session and
_session_created_at (both initially None).  nextId is model bookkeeping that
supplies the identity of the next requests.Session() allocation. -/
structure ClientState where
  session : Option HttpSession
  sessionCreatedAt : Option Rat
  nextId : Nat
deriving DecidableEq

/-- SESSION_LIFETIME = 3600 (src/nodes.py line 19). -/
def sessionLifetime : Rat := 3600

/-- Allocate a fresh requests.Session with the retry adapters mounted and
store it together with its creation time (the body of the refresh branch of
_get_session; closing the previous session has no modelled effect). -/
def mkFreshSession (st : ClientState) (now : Rat) : HttpSession × ClientState :=
  let s : HttpSession := { id := st.nextId, retries := defaultRetries }
  (s, { session := some s, sessionCreatedAt := some now, nextId := st.nextId + 1 })

/-- _get_session (src/nodes.py lines 75-103): reuse the cached session unless
it is missing, its creation time is missing, or it is older than
SESSION_LIFETIME; otherwise create and cache a fresh one.  current_time is
passed explicitly (time.time() in the code). -/
def getSession (st : ClientState) (now : Rat) : HttpSession × ClientState :=
  match st.session, st.sessionCreatedAt with
  | some s, some t =>
      if now - t > sessionLifetime then mkFreshSession st now else (s, st)
  | some _, none => mkFreshSession st now
  | none, _ => mkFreshSession st now

/-! ## URL validation (_validate_url, src/nodes.py lines 105-116) -/

/-- The parse result fields _validate_url reads (scheme, netloc) plus the
remainder of the URL. -/
structure UrlParts where
  scheme : String
  netloc : String
  tail : String
deriving DecidableEq

/-- Characters allowed in a URL scheme after the first (letters, digits,
plus, minus, dot). -/
def schemeChar (c : Char) : Bool :=
  c.isAlphanum || c = '+' || c = '-' || c = '.'

/-- Split a character list at the first colon, if any. -/
def splitAtColon : List Char → Option (List Char × List Char)
  | [] => none
  | c :: cs =>
      if c = ':' then some ([], cs)
      else
        match splitAtColon cs with
        | none => none
        | some (a, b) => some (c :: a, b)

/-- Character that terminates the network-location part of a URL. -/
def netlocEnd (c : Char) : Bool :=
  c = '/' || c = '?' || c = '#'

/-- Extract the network location: present only when the remainder starts with
two slashes, running up to the next slash, question mark or hash. -/
def netlocSplit : List Char → List Char × List Char
  | '/' :: '/' :: r => (r.takeWhile (fun c => !netlocEnd c), r.dropWhile (fun c => !netlocEnd c))
  | cs => ([], cs)

/-- Characters the parser strips from the left of the URL (C0 controls and
space, codes 0 to 32). -/
def isC0OrSpace (c : Char) : Bool :=
  c.toNat ≤ 32

/-- The three characters removed from anywhere in the URL before parsing
(tab, carriage return, line feed). -/
def isUnsafeUrlChar (c : Char) : Bool :=
  c = '\t' || c = '\r' || c = '\n'

/-- ASCII hexadecimal digit. -/
def isHexChar (c : Char) : Bool :=
  c.isDigit || ('a' ≤ c && c ≤ 'f') || ('A' ≤ c && c ≤ 'F')

/-- Split a character list on a separator, Python str.split style (the
result always has at least one part; n separators give n+1 parts). -/
def splitChar (sep : Char) : List Char → List (List Char)
  | [] => [[]]
  | c :: cs =>
      let r := splitChar sep cs
      if c = sep then [] :: r
      else
        match r with
        | h :: t => (c :: h) :: t
        | [] => [[c]]

/-- Decimal value of a digit string. -/
def digitsVal (p : List Char) : Nat :=
  p.foldl (fun a c => a * 10 + (c.toNat - 48)) 0

/-- One dotted-quad octet: 1-3 ASCII decimal digits, no leading zero unless
the octet is exactly 0, value at most 255. -/
def ipv4OctetValid (p : List Char) : Bool :=
  match p with
  | [] => false
  | c :: _ =>
      p.all Char.isDigit && decide (p.length ≤ 3) &&
        (!(c = '0') || decide (p.length = 1)) && decide (digitsVal p ≤ 255)

/-- A dotted-quad IPv4 address: exactly four valid octets. -/
def ipv4Valid (cs : List Char) : Bool :=
  let parts := splitChar '.' cs
  decide (parts.length = 4) && parts.all ipv4OctetValid

/-- One IPv6 hextet: one to four hexadecimal digits. -/
def isHextet (p : List Char) : Bool :=
  decide (1 ≤ p.length) && decide (p.length ≤ 4) && p.all isHexChar

/-- Validity of an IPv6 address body (no scope id), following the ipaddress
module: split on colons (at least 3 parts); a final part containing a dot
must be a valid IPv4 suffix and counts as two hextets; at most 9 parts; at
most one empty interior part (the double colon), a leading or trailing empty
part only as part of a leading or trailing double colon; the double colon
must skip at least one group; every copied part a valid hextet. -/
def ipv6Core (addr : List Char) : Bool :=
  let parts0 := splitChar ':' addr
  if parts0.length < 3 then false
  else
    match (if (parts0.getLastD []).contains '.' then
            (if ipv4Valid (parts0.getLastD []) then
              some (parts0.dropLast ++ [['0'], ['0']])
            else none)
          else some parts0) with
    | none => false
    | some parts =>
        if parts.length > 9 then false
        else
          let n := parts.length
          let interior := (List.range n).filter (fun i =>
            decide (0 < i) && decide (i < n - 1) && (parts.getD i []).isEmpty)
          match interior with
          | [] =>
              decide (n = 8) && !(parts.getD 0 []).isEmpty &&
                !(parts.getD (n - 1) []).isEmpty && parts.all isHextet
          | [i] =>
              let hi := if (parts.getD 0 []).isEmpty then i - 1 else i
              let lo := if (parts.getD (n - 1) []).isEmpty then n - i - 2 else n - i - 1
              (!(parts.getD 0 []).isEmpty || decide (hi = 0)) &&
                (!(parts.getD (n - 1) []).isEmpty || decide (lo = 0)) &&
                decide (hi + lo ≤ 7) &&
                (parts.take hi).all isHextet && (parts.drop (n - lo)).all isHextet
          | _ => false

/-- IPv6 address with an optional zone: a percent sign splits off a scope id,
which must be non-empty and must not itself contain a percent sign. -/
def ipv6Valid (cs : List Char) : Bool :=
  let addr := cs.takeWhile (fun c => !(c = '%'))
  match cs.drop addr.length with
  | [] => ipv6Core addr
  | _ :: scope => !scope.isEmpty && !(scope.contains '%') && ipv6Core addr

/-- The bracketed-host check: a host starting with a lowercase v must be an
IPvFuture (v, one or more hex digits, a dot, at least one more character);
any other host must be a valid IPv6 address (a valid IPv4 address in
brackets is likewise rejected, and is never a valid IPv6 address). -/
def bracketedHostValid (host : List Char) : Bool :=
  match host with
  | 'v' :: rest =>
      let hx := rest.takeWhile isHexChar
      (match rest.drop hx.length with
       | '.' :: tl => !hx.isEmpty && !tl.isEmpty
       | _ => false)
  | _ => ipv6Valid host

/-- The characters whose NFKC normalization introduces one of the URL
delimiters slash, question mark, hash, at or colon, enumerated from the
Unicode data CPython 3.11 ships; the _checknetloc re-normalization check
raises exactly when a netloc contains one of them (single characters are the
only source of such delimiters: canonical composition never produces them,
and literal at/colon/hash/question characters are removed before the check
while a slash cannot occur inside a netloc). -/
def nfkcUnsafe (c : Char) : Bool :=
  c.toNat = 0x2047 || c.toNat = 0x2048 || c.toNat = 0x2049 || c.toNat = 0x2100 ||
  c.toNat = 0x2101 || c.toNat = 0x2105 || c.toNat = 0x2106 || c.toNat = 0x2a74 ||
  c.toNat = 0xfe13 || c.toNat = 0xfe16 || c.toNat = 0xfe55 || c.toNat = 0xfe56 ||
  c.toNat = 0xfe5f || c.toNat = 0xfe6b || c.toNat = 0xff03 || c.toNat = 0xff0f ||
  c.toNat = 0xff1a || c.toNat = 0xff1f || c.toNat = 0xff20

/-- Modelled from the Python standard library urllib.parse.urlparse as of
CPython 3.11 (an external collaborator of src/nodes.py), for the fields
_validate_url reads.  The URL is first stripped of leading C0 controls and
spaces and of every tab, carriage return and line feed; a scheme is
recognised when the text before the first colon is non-empty, starts with an
ASCII letter and consists of scheme characters, and is lowercased; the
netloc follows a leading double slash and runs to the next slash, question
mark or hash.  The parser raises (modelled as the error case, caught by the
try/except in _validate_url) when the netloc contains an unmatched square
bracket, when the text between the brackets is neither an IPvFuture nor a
valid IPv6 address, or when the netloc contains a character that NFKC
normalization expands to a URL delimiter.  The query/fragment splits are
omitted: they cannot raise and do not affect scheme or netloc. -/
def urlparse (url : String) : Except String UrlParts :=
  let cs := (url.data.dropWhile isC0OrSpace).filter (fun c => !isUnsafeUrlChar c)
  let schemeRest : List Char × List Char :=
    match splitAtColon cs with
    | some (pre, post) =>
        match pre with
        | [] => ([], cs)
        | c :: _ =>
            if c.isAlpha && pre.all schemeChar then (pre.map Char.toLower, post)
            else ([], cs)
    | none => ([], cs)
  let nl := netlocSplit schemeRest.2
  if nl.1.contains '[' && !nl.1.contains ']' then .error "Invalid IPv6 URL"
  else if nl.1.contains ']' && !nl.1.contains '[' then .error "Invalid IPv6 URL"
  else if nl.1.contains '[' && nl.1.contains ']' &&
      !bracketedHostValid
        (((nl.1.dropWhile (fun c => !(c = '['))).drop 1).takeWhile (fun c => !(c = ']'))) then
    .error "invalid bracketed host"
  else if nl.1.any nfkcUnsafe then
    .error "netloc contains invalid characters under NFKC normalization"
  else
    .ok { scheme := String.mk schemeRest.1, netloc := String.mk nl.1,
          tail := String.mk nl.2 }

/-- _validate_url (src/nodes.py lines 105-116): a urlparse failure is caught
by the except branch and rejected; otherwise reject when scheme or netloc is
empty (all([result.scheme, result.netloc])), reject when the scheme is not
http or https, accept otherwise. -/
def validateUrl (url : String) : Bool :=
  match urlparse url with
  | .error _ => false
  | .ok r =>
      if r.scheme == "" || r.netloc == "" then false
      else if !(r.scheme == "http" || r.scheme == "https") then false
      else true

/-! ## send_request (src/nodes.py lines 118-213) -/

/-- What the single session.post call can come back with, seen from inside
the try block: the four exception classes caught at lines 196-213, or a
response carrying a status code, the response text, and the outcome of
response.json() (error = ValueError carrying the message text). -/
inductive TransportOutcome where
  | timeout
  | connectionError (msg : String)
  | requestFailure (msg : String)
  | unexpectedFailure (msg : String)
  | response (status : Nat) (text : String) (json : Except String JsonVal)

/-- One issued session.post call (endpoint, headers, json body, timeout). -/
structure HttpRequest where
  endpoint : String
  headers : List (String × String)
  body : JsonVal
  timeoutSeconds : Nat

/-- Result of one send_request invocation: the single element of the returned
tuple (a string in all but one branch, hence a JsonVal), the class state at
return, and the session.post calls made (in order). -/
structure SendResult where
  output : JsonVal
  state : ClientState
  calls : List HttpRequest

def errMissingInput : String := "❌ Error: 'api_url'과 'api_key'를 모두 입력해주세요."

def errBadUrl : String := "❌ Error: 올바른 URL 형식이 아닙니다. (예: https://...trycloudflare.com)"

def err403 : String := "⛔ Error 403: 인증 실패! API Key를 확인하세요."

def err404 : String := "❌ Error 404: 엔드포인트를 찾을 수 없습니다. URL이 정확한가요?"

def err500 (detail : String) : String := "❌ Error 500: 서버 내부 오류. 상세: " ++ detail

def errOtherStatus (status : Nat) (detail : String) : String :=
  "❌ Server Error " ++ toString status ++ ": " ++ detail

def errTimeout (t : Nat) : String :=
  "❌ Timeout Error: 서버가 " ++ toString t ++ "초 내에 응답하지 않았습니다."

def errConnection : String :=
  "❌ Connection Error: 서버에 연결할 수 없습니다. URL과 네트워크를 확인하세요."

def errRequest (m : String) : String := "❌ Request Error: " ++ m.take 200

def errUnexpected (m : String) : String := "❌ Unexpected Error: " ++ m.take 200

def errJsonParse (m : String) : String := "❌ Error: 서버 응답을 파싱할 수 없습니다. " ++ m

def warnEmptyResult : String := "⚠️ Warning: 서버가 빈 응답을 반환했습니다."

/-- Message of the TypeError raised by len() on an unsized value, evaluated
inside the success print (src/nodes.py line 178) and caught by the outer
except Exception.  The exact CPython wording is environment detail; only the
fact that an Unexpected Error string is returned matters here. -/
def lenTypeErrText : String := "TypeError: len"

/-- The 200-branch of send_request (src/nodes.py lines 170-182): parse the
body as JSON (ValueError is caught at line 181), read result.get with an
empty-string default, return the empty-response warning on a falsy value,
otherwise evaluate len(final_text) in the success print (a TypeError there
escapes to the outer except Exception) and return the value itself. -/
def handle200 (jres : Except String JsonVal) : JsonVal :=
  match jres with
  | .error e => .jstr (errJsonParse e)
  | .ok j =>
      match jsonGet j "result" (.jstr "") with
      | .error e => .jstr (errUnexpected e)
      | .ok finalText =>
          if !pyTruthy finalText then .jstr warnEmptyResult
          else
            match pyLen finalText with
            | none => .jstr (errUnexpected lenTypeErrText)
            | some _ => finalText

/-- The status dispatch of send_request (src/nodes.py lines 170-194). -/
def handleResponse (status : Nat) (text : String) (jres : Except String JsonVal) : JsonVal :=
  if status = 200 then handle200 jres
  else if status = 403 then .jstr err403
  else if status = 404 then .jstr err404
  else if status = 500 then .jstr (err500 (text.take 200))
  else .jstr (errOtherStatus status (text.take 200))

/-- The single request built by send_request (src/nodes.py lines 139-153):
endpoint is the cleaned URL plus /engineer, headers carry the API key, the
JSON body carries the four generation parameters.  url and key are the
already-stripped inputs. -/
def buildRequest (url key prompt : String) (seed maxTokens : Nat) (temperature : Rat)
    (timeoutSeconds : Nat) : HttpRequest :=
  { endpoint := url ++ "/engineer",
    headers := [("Content-Type", "application/json"), ("X-API-Key", key),
                ("Connection", "keep-alive"), ("User-Agent", "ComfyUI-QwenClient/1.0")],
    body := .jobj [("prompt", .jstr prompt), ("seed", .jnum seed),
                   ("max_tokens", .jnum maxTokens), ("temperature", .jnum temperature)],
    timeoutSeconds := timeoutSeconds }

/-- The try block of send_request (src/nodes.py lines 161-213), after the
session has been acquired: one session.post call, then either the status
dispatch or one of the four exception handlers.  Only the ConnectionError
handler (lines 200-204) touches the class state, clearing both cache
fields. -/
def transportPhase (ss : HttpSession × ClientState) (req : HttpRequest) :
    TransportOutcome → SendResult
  | .timeout =>
      { output := .jstr (errTimeout req.timeoutSeconds), state := ss.2, calls := [req] }
  | .connectionError _ =>
      { output := .jstr errConnection,
        state := { ss.2 with session := none, sessionCreatedAt := none }, calls := [req] }
  | .requestFailure m =>
      { output := .jstr (errRequest m), state := ss.2, calls := [req] }
  | .unexpectedFailure m =>
      { output := .jstr (errUnexpected m), state := ss.2, calls := [req] }
  | .response status text jres =>
      { output := handleResponse status text jres, state := ss.2, calls := [req] }

/-- send_request (src/nodes.py lines 118-213) as a total function.  Inputs
are the node inputs; now is the clock read by _get_session; outcome is what
the single session.post call produces.  Output: the returned tuple element,
the class state at return, and the list of session.post calls made.  The
api-key-length and prompt-length warnings (lines 131-137) only print and are
omitted. -/
def sendRequest (st : ClientState) (now : Rat) (outcome : TransportOutcome)
    (apiUrl apiKey prompt : String) (seed maxTokens : Nat) (temperature : Rat)
    (timeoutSeconds : Nat) : SendResult :=
  let url := pyRstripSlash (pyStrip apiUrl)
  let key := pyStrip apiKey
  if url == "" || key == "" then
    { output := .jstr errMissingInput, state := st, calls := [] }
  else if !validateUrl url then
    { output := .jstr errBadUrl, state := st, calls := [] }
  else
    transportPhase (getSession st now)
      (buildRequest url key prompt seed maxTokens temperature timeoutSeconds) outcome

/-- The validation phase of send_request accepts the inputs (src/nodes.py
lines 118-129): both stripped inputs non-empty and the cleaned URL valid. -/
def inputsAccepted (apiUrl apiKey : String) : Prop :=
  pyRstripSlash (pyStrip apiUrl) ≠ "" ∧ pyStrip apiKey ≠ "" ∧
    validateUrl (pyRstripSlash (pyStrip apiUrl)) = true

instance (apiUrl apiKey : String) : Decidable (inputsAccepted apiUrl apiKey) := by
  unfold inputsAccepted; infer_instance

/-- Modelled from the urllib3 Retry/HTTPAdapter collaborator mounted by
_get_session: the number of HTTP attempts one session.post call performs.
statuses lists the status the server would answer on each successive attempt;
after an attempt, a retry follows while the received status is in the
status_forcelist, the method is in allowed_methods and retries remain. -/
def adapterAttempts (cfg : RetryConfig) (method : String) :
    List Nat → Nat → Nat
  | [], _ => 1
  | s :: rest, left =>
      if s ∈ cfg.statusForcelist ∧ method ∈ cfg.allowedMethods ∧ 0 < left then
        1 + adapterAttempts cfg method rest (left - 1)
      else 1

/-- Every session the client caches was produced by mkFreshSession, so it
carries the default retry adapters; stated as a predicate on the cache. -/
def sessionsWellFormed (st : ClientState) : Prop :=
  ∀ s, st.session = some s → s.retries = defaultRetries

/-- The cache is never torn: the session object and its creation timestamp
are both set or both cleared. -/
def cacheWhole (st : ClientState) : Prop :=
  (st.session = none ∧ st.sessionCreatedAt = none) ∨
    (∃ s t, st.session = some s ∧ st.sessionCreatedAt = some t)

/-- The field list of a JSON object value (empty for non-objects). -/
def jsonFields : JsonVal → List (String × JsonVal)
  | .jobj fs => fs
  | _ => []

/-- The class state at module load: _session = None, _session_created_at =
None (src/nodes.py lines 17-18). -/
def initState : ClientState :=
  { session := none, sessionCreatedAt := none, nextId := 0 }

/-- Concrete fixture: a cached session with identity 0. -/
def sampleSession : HttpSession :=
  { id := 0, retries := defaultRetries }

/-- Concrete fixture: a cache holding sampleSession, created at time 100. -/
def sampleState : ClientState :=
  { session := some sampleSession, sessionCreatedAt := some 100, nextId := 1 }

/-! ## SecureCodec, modelled from the spec

Modelled from the spec: the SecureCodec component (encode/decode of
compress-then-encrypt envelopes, spec sections 3 and 4.3) belongs to the
secure-client variants of this repository that are not present under src/;
only the plain HTTP client is.  The pipeline is embedded faithfully at the
structural level: canonical serialization of the request payload, then
run-length compression (standing in for the deflate-family compressor), then
encryption by a keystream derived from key and nonce with an authentication
tag computed over key, nonce and ciphertext (standing in for AES-256-GCM,
whose cipher core is not computable in this embedding), then the fixed
framing nonce (16 bytes) followed by tag (16 bytes) followed by ciphertext,
base64-encoded for transport.  Decode is the exact inverse and verifies the
tag before decompressing. -/

/-- The logical plaintext message of spec section 3: system_prompt?, prompt,
seed, max_tokens, temperature. -/
structure RequestPayload where
  systemPrompt : Option String
  prompt : String
  seed : Nat
  maxTokens : Nat
  temperature : Rat
deriving DecidableEq

/-- Decode failures of spec section 4.3. -/
inductive CodecError where
  | malformedEnvelope
  | authenticationFailed
  | decompressionError
deriving DecidableEq

/-- Byte-safe variable-length encoding of a natural number (little-endian
base-128 with continuation bit), used by the canonical serializer. -/
def varEnc (n : Nat) : List Nat :=
  if h : n < 128 then [n] else (n % 128 + 128) :: varEnc (n / 128)
termination_by n
decreasing_by exact Nat.div_lt_self (by omega) (by omega)

/-- Inverse of varEnc, returning the value and the remaining bytes. -/
def varDec : List Nat → Option (Nat × List Nat)
  | [] => none
  | b :: rest =>
      if b < 128 then some (b, rest)
      else
        match varDec rest with
        | some (n, r) => some (n * 128 + (b - 128), r)
        | none => none

/-- Serialize a character list, one code point at a time. -/
def charsEnc : List Char → List Nat
  | [] => []
  | c :: cs => varEnc c.toNat ++ charsEnc cs

/-- Parse back a given number of characters. -/
def charsDec : Nat → List Nat → Option (List Char × List Nat)
  | 0, rest => some ([], rest)
  | k + 1, rest =>
      match varDec rest with
      | some (n, r) =>
          match charsDec k r with
          | some (cs, r2) => some (Char.ofNat n :: cs, r2)
          | none => none
      | none => none

/-- Canonical, self-delimiting string serialization: length then characters. -/
def strEnc (s : String) : List Nat :=
  varEnc s.data.length ++ charsEnc s.data

/-- Inverse of strEnc. -/
def strDec (bs : List Nat) : Option (String × List Nat) :=
  match varDec bs with
  | some (n, r) =>
      match charsDec n r with
      | some (cs, r2) => some (String.mk cs, r2)
      | none => none
  | none => none

/-- Optional-string serialization with a presence byte. -/
def optStrEnc : Option String → List Nat
  | none => [0]
  | some s => 1 :: strEnc s

/-- Inverse of optStrEnc. -/
def optStrDec : List Nat → Option (Option String × List Nat)
  | 0 :: rest => some (none, rest)
  | 1 :: rest =>
      match strDec rest with
      | some (s, r) => some (some s, r)
      | none => none
  | _ => none

/-- Integer serialization: sign byte then magnitude. -/
def intEnc : Int → List Nat
  | .ofNat n => 0 :: varEnc n
  | .negSucc n => 1 :: varEnc n

/-- Inverse of intEnc. -/
def intDec : List Nat → Option (Int × List Nat)
  | 0 :: rest =>
      match varDec rest with
      | some (n, r) => some (Int.ofNat n, r)
      | none => none
  | 1 :: rest =>
      match varDec rest with
      | some (n, r) => some (Int.negSucc n, r)
      | none => none
  | _ => none

/-- Rational serialization: numerator then denominator (values are stored in
lowest terms, as Rat keeps them). -/
def ratEnc (q : Rat) : List Nat :=
  intEnc q.num ++ varEnc q.den

/-- Inverse of ratEnc. -/
def ratDec (bs : List Nat) : Option (Rat × List Nat) :=
  match intDec bs with
  | some (n, r) =>
      match varDec r with
      | some (d, r2) => some (mkRat n d, r2)
      | none => none
  | none => none

/-- Canonical serialization of the request payload: a deterministic byte
string with stable field order (spec section 4.3 step 1). -/
def serialize (m : RequestPayload) : List Nat :=
  optStrEnc m.systemPrompt ++ strEnc m.prompt ++ varEnc m.seed ++
    varEnc m.maxTokens ++ ratEnc m.temperature

/-- Inverse of serialize; requires the whole input to be consumed. -/
def deserialize (bs : List Nat) : Option RequestPayload :=
  match optStrDec bs with
  | some (sp, r1) =>
      match strDec r1 with
      | some (p, r2) =>
          match varDec r2 with
          | some (seed, r3) =>
              match varDec r3 with
              | some (mt, r4) =>
                  match ratDec r4 with
                  | some (t, r5) =>
                      if r5 = [] then some ⟨sp, p, seed, mt, t⟩ else none
                  | none => none
              | none => none
          | none => none
      | none => none
  | none => none

/-- Length of the run of bytes equal to b at the head of the list. -/
def runLen (b : Nat) : List Nat → Nat
  | [] => 0
  | x :: xs => if x = b then runLen b xs + 1 else 0

/-- Run-length compression (the deflate-family compressor of spec section
4.3, modelled at the structural level): each maximal run of up to 255 equal
bytes becomes a count byte followed by the value byte. -/
def rleEncode : List Nat → List Nat
  | [] => []
  | b :: bs =>
      (min 254 (runLen b bs) + 1) :: b :: rleEncode (bs.drop (min 254 (runLen b bs)))
termination_by l => l.length
decreasing_by simp [List.length_drop]; omega

/-- Run-length decompression; fails on a corrupt stream (zero count or
dangling count byte). -/
def rleDecode : List Nat → Option (List Nat)
  | [] => some []
  | c :: b :: rest =>
      if c = 0 then none
      else
        match rleDecode rest with
        | some tl => some (List.replicate c b ++ tl)
        | none => none
  | _ => none

/-- One 32-bit mixing step of the keyed byte stream. -/
def mixStep (acc b : Nat) : Nat :=
  (acc * 131 + b + 17) % 4294967296

/-- Keyed hash of a byte list (stand-in for the AES-256 cipher core). -/
def hashBytes (seed : Nat) (bs : List Nat) : Nat :=
  bs.foldl mixStep seed

/-- Byte i of the keystream derived from key and nonce (CTR-style stream,
modelling AES-GCM encryption). -/
def ksByte (key nonce : List Nat) (i : Nat) : Nat :=
  hashBytes (5381 + i) (key ++ nonce) % 256

/-- XOR a byte list against a keystream, starting at stream position i. -/
def streamXor (ks : Nat → Nat) : Nat → List Nat → List Nat
  | _, [] => []
  | i, b :: bs => (b ^^^ ks i) :: streamXor ks (i + 1) bs

/-- The 16-byte authentication tag over key, nonce and ciphertext (modelling
the GCM tag). -/
def macTag (key nonce ct : List Nat) : List Nat :=
  (List.range 16).map (fun j => hashBytes (7919 + j) (key ++ nonce ++ ct) % 256)

/-- Sextet encoding of a byte list, three bytes to four sextets, with 64 as
the padding marker. -/
def sxEnc : List Nat → List Nat
  | [] => []
  | [b0] => [b0 / 4, b0 % 4 * 16, 64, 64]
  | [b0, b1] => [b0 / 4, b0 % 4 * 16 + b1 / 16, b1 % 16 * 4, 64]
  | b0 :: b1 :: b2 :: rest =>
      (b0 / 4) :: (b0 % 4 * 16 + b1 / 16) :: (b1 % 16 * 4 + b2 / 64) :: (b2 % 64) ::
        sxEnc rest

/-- Inverse of sxEnc with strict validation. -/
def sxDec : List Nat → Option (List Nat)
  | [] => some []
  | s0 :: s1 :: s2 :: s3 :: rest =>
      if s0 < 64 ∧ s1 < 64 then
        if s2 = 64 then
          if s3 = 64 ∧ rest = [] ∧ s1 % 16 = 0 then some [s0 * 4 + s1 / 16] else none
        else
          if s2 < 64 then
            if s3 = 64 then
              if rest = [] ∧ s2 % 4 = 0 then
                some [s0 * 4 + s1 / 16, s1 % 16 * 16 + s2 / 4]
              else none
            else
              if s3 < 64 then
                match sxDec rest with
                | some tl =>
                    some ((s0 * 4 + s1 / 16) :: (s1 % 16 * 16 + s2 / 4) ::
                      (s2 % 4 * 64 + s3) :: tl)
                | none => none
              else none
          else none
      else none
  | _ => none

/-- The base64 alphabet character for a sextet value. -/
def b64Char (n : Nat) : Char :=
  if n < 26 then Char.ofNat (65 + n)
  else if n < 52 then Char.ofNat (97 + (n - 26))
  else if n < 62 then Char.ofNat (48 + (n - 52))
  else if n = 62 then Char.ofNat 43
  else Char.ofNat 47

/-- Inverse of the base64 alphabet. -/
def b64CharVal (c : Char) : Option Nat :=
  if 65 ≤ c.toNat ∧ c.toNat ≤ 90 then some (c.toNat - 65)
  else if 97 ≤ c.toNat ∧ c.toNat ≤ 122 then some (c.toNat - 97 + 26)
  else if 48 ≤ c.toNat ∧ c.toNat ≤ 57 then some (c.toNat - 48 + 52)
  else if c.toNat = 43 then some 62
  else if c.toNat = 47 then some 63
  else none

/-- Character for a sextet value or the padding marker. -/
def padChar (v : Nat) : Char :=
  if v = 64 then Char.ofNat 61 else b64Char v

/-- Inverse of padChar (61 is the code of the padding character). -/
def padCharVal (c : Char) : Option Nat :=
  if c.toNat = 61 then some 64 else b64CharVal c

/-- Base64-encode a byte list for transport (spec section 4.3 step 5). -/
def b64encode (bs : List Nat) : String :=
  String.mk ((sxEnc bs).map padChar)

/-- Base64-decode a transport string back to bytes. -/
def b64decode (s : String) : Option (List Nat) :=
  (s.data.mapM padCharVal).bind sxDec

namespace SecureCodec

/-- encode(payload, key) of spec section 4.3: serialize, compress, encrypt
with the keystream at the given nonce, tag, frame as nonce then tag then
ciphertext, and base64 the frame.  The fresh 16-byte random nonce is an
explicit argument (the secure random source is an external collaborator). -/
def encode (m : RequestPayload) (key nonce : List Nat) : String :=
  b64encode (nonce ++
    macTag key nonce (streamXor (ksByte key nonce) 0 (rleEncode (serialize m))) ++
    streamXor (ksByte key nonce) 0 (rleEncode (serialize m)))

/-- decode(envelope, key) of spec section 4.3: base64-decode, check the
minimum frame length, split nonce, tag and ciphertext, verify the tag BEFORE
any decompression, then decrypt, decompress and deserialize.  A failed
deserialization after a valid tag is classified with the corrupt-stream
error, as a protocol mismatch. -/
def decode (wire : String) (key : List Nat) : Except CodecError RequestPayload :=
  match b64decode wire with
  | none => .error .malformedEnvelope
  | some bytes =>
      if bytes.length < 32 then .error .malformedEnvelope
      else
        let nonce := bytes.take 16
        let tag := (bytes.drop 16).take 16
        let ct := bytes.drop 32
        if macTag key nonce ct = tag then
          match rleDecode (streamXor (ksByte key nonce) 0 ct) with
          | none => .error .decompressionError
          | some plain =>
              match deserialize plain with
              | some m => .ok m
              | none => .error .decompressionError
        else .error .authenticationFailed

end SecureCodec



/-- Concrete fixture: a small request payload for codec witnesses. -/
def samplePayload : RequestPayload :=
  { systemPrompt := none, prompt := "a", seed := 0, maxTokens := 64,
    temperature := 7/10 }
/-! ## Helper lemmas -/

theorem getSession_reuse (st : ClientState) (now : Rat) (s : HttpSession) (t : Rat)
    (hs : st.session = some s) (ht : st.sessionCreatedAt = some t)
    (h : now - t ≤ sessionLifetime) : getSession st now = (s, st) := by
  unfold getSession
  rw [hs, ht]
  simp [not_lt.mpr h]

theorem getSession_fresh (st : ClientState) (now : Rat)
    (h : ¬ ∃ s t, st.session = some s ∧ st.sessionCreatedAt = some t ∧
        now - t ≤ sessionLifetime) :
    getSession st now = mkFreshSession st now := by
  unfold getSession
  cases hs : st.session with
  | none => rfl
  | some s =>
    cases ht : st.sessionCreatedAt with
    | none => rfl
    | some t =>
      have hgt : now - t > sessionLifetime := by
        by_contra hc
        exact h ⟨s, t, hs, ht, le_of_not_lt hc⟩
      simp [hgt]

theorem getSession_result_fresh (st : ClientState) (now : Rat) :
    ∃ t, (getSession st now).2.session = some (getSession st now).1 ∧
      (getSession st now).2.sessionCreatedAt = some t ∧ now - t ≤ sessionLifetime := by
  unfold getSession
  cases hs : st.session with
  | none => exact ⟨now, rfl, rfl, by norm_num [sessionLifetime]⟩
  | some s =>
    cases ht : st.sessionCreatedAt with
    | none => exact ⟨now, rfl, rfl, by norm_num [sessionLifetime]⟩
    | some t =>
      by_cases hgt : now - t > sessionLifetime
      · exact ⟨now, by simp [hgt, mkFreshSession], by simp [hgt, mkFreshSession],
          by norm_num [sessionLifetime]⟩
      · exact ⟨t, by simp [hgt, hs], by simp [hgt, ht], le_of_not_lt hgt⟩

theorem sendRequest_accepted (st : ClientState) (now : Rat) (outcome : TransportOutcome)
    (apiUrl apiKey prompt : String) (seed maxTokens : Nat) (temperature : Rat)
    (timeoutSeconds : Nat) (h : inputsAccepted apiUrl apiKey) :
    sendRequest st now outcome apiUrl apiKey prompt seed maxTokens temperature timeoutSeconds =
      transportPhase (getSession st now)
        (buildRequest (pyRstripSlash (pyStrip apiUrl)) (pyStrip apiKey) prompt seed
          maxTokens temperature timeoutSeconds) outcome := by
  obtain ⟨h1, h2, h3⟩ := h
  unfold sendRequest
  simp [h1, h2, h3]

theorem sendRequest_rejected (st : ClientState) (now : Rat) (outcome : TransportOutcome)
    (apiUrl apiKey prompt : String) (seed maxTokens : Nat) (temperature : Rat)
    (timeoutSeconds : Nat) (h : ¬ inputsAccepted apiUrl apiKey) :
    (sendRequest st now outcome apiUrl apiKey prompt seed maxTokens temperature
      timeoutSeconds).state = st ∧
    (sendRequest st now outcome apiUrl apiKey prompt seed maxTokens temperature
      timeoutSeconds).calls = [] ∧
    ((sendRequest st now outcome apiUrl apiKey prompt seed maxTokens temperature
        timeoutSeconds).output = .jstr errMissingInput ∨
      (sendRequest st now outcome apiUrl apiKey prompt seed maxTokens temperature
        timeoutSeconds).output = .jstr errBadUrl) := by
  unfold sendRequest
  by_cases h1 : (pyRstripSlash (pyStrip apiUrl) == "" || pyStrip apiKey == "") = true
  · simp [h1]
  · have h2 : validateUrl (pyRstripSlash (pyStrip apiUrl)) = false := by
      rw [Bool.or_eq_true, not_or] at h1
      obtain ⟨hu, hk⟩ := h1
      rw [beq_iff_eq] at hu hk
      cases hv : validateUrl (pyRstripSlash (pyStrip apiUrl)) with
      | false => rfl
      | true => exact absurd ⟨hu, hk, hv⟩ h
    rw [Bool.not_eq_true] at h1
    simp [h1, h2]

/-! ## Claim theorems -/

/-- C2: _get_session reuses the cached session if and only if it exists, its
creation timestamp exists, and the elapsed time since creation is at most
3600 seconds: under those conditions the exact cached session is returned and
the cache is untouched; on any violation the cache is replaced with a freshly
created session stamped with the current time; and the session returned by
every call satisfies the freshness condition with respect to the resulting
cache. -/
theorem c2_get_session_freshness :
    (∀ (st : ClientState) (now : Rat) (s : HttpSession) (t : Rat),
        st.session = some s → st.sessionCreatedAt = some t →
        now - t ≤ sessionLifetime → getSession st now = (s, st))
    ∧ (∀ (st : ClientState) (now : Rat),
        (¬ ∃ s t, st.session = some s ∧ st.sessionCreatedAt = some t ∧
            now - t ≤ sessionLifetime) →
        getSession st now = mkFreshSession st now ∧
        (getSession st now).2.session = some (getSession st now).1 ∧
        (getSession st now).2.sessionCreatedAt = some now)
    ∧ (∀ (st : ClientState) (now : Rat),
        ∃ t, (getSession st now).2.session = some (getSession st now).1 ∧
          (getSession st now).2.sessionCreatedAt = some t ∧
          now - t ≤ sessionLifetime) := by
  refine ⟨fun st now s t hs ht h => getSession_reuse st now s t hs ht h,
    fun st now h => ?_, getSession_result_fresh⟩
  have he := getSession_fresh st now h
  rw [he]
  exact ⟨rfl, rfl, rfl⟩

/-- Witness for c2_get_session_freshness: at a cache holding sampleSession
created at time 100, a call at time 200 returns the cached session unchanged,
while a call at time 4000 replaces it. -/
theorem c2_get_session_freshness_witness :
    getSession sampleState 200 = (sampleSession, sampleState) ∧
    getSession sampleState 4000 = mkFreshSession sampleState 4000 := by
  constructor
  · exact c2_get_session_freshness.1 sampleState 200 sampleSession 100 rfl rfl
      (by norm_num [sessionLifetime])
  · exact (c2_get_session_freshness.2.1 sampleState 4000 (by
      rintro ⟨s, t, hs, ht, hle⟩
      simp only [sampleState] at hs ht
      cases hs; cases ht
      norm_num [sessionLifetime] at hle)).1

/-- C7: the cache is mutated wholesale, never partially: _get_session always
leaves both cache fields set, and every return of send_request leaves the
session object and its timestamp either both set or both cleared (assuming
the cache was not already torn on entry). -/
theorem c7_cache_mutated_wholesale :
    (∀ (st : ClientState) (now : Rat), cacheWhole (getSession st now).2)
    ∧ (∀ (st : ClientState) (now : Rat) (outcome : TransportOutcome)
        (apiUrl apiKey prompt : String) (seed maxTokens : Nat) (temperature : Rat)
        (timeoutSeconds : Nat),
        cacheWhole st →
        cacheWhole (sendRequest st now outcome apiUrl apiKey prompt seed maxTokens
          temperature timeoutSeconds).state) := by
  have hget : ∀ (st : ClientState) (now : Rat), cacheWhole (getSession st now).2 := by
    intro st now
    obtain ⟨t, h1, h2, _⟩ := getSession_result_fresh st now
    exact Or.inr ⟨_, t, h1, h2⟩
  refine ⟨hget, ?_⟩
  intro st now outcome apiUrl apiKey prompt seed maxTokens temperature timeoutSeconds hw
  by_cases hacc : inputsAccepted apiUrl apiKey
  · rw [sendRequest_accepted st now outcome apiUrl apiKey prompt seed maxTokens
      temperature timeoutSeconds hacc]
    cases outcome with
    | timeout => exact hget st now
    | connectionError m => exact Or.inl ⟨rfl, rfl⟩
    | requestFailure m => exact hget st now
    | unexpectedFailure m => exact hget st now
    | response status text jres => exact hget st now
  · rw [(sendRequest_rejected st now outcome apiUrl apiKey prompt seed maxTokens
      temperature timeoutSeconds hacc).1]
    exact hw

/-- Witness for c7_cache_mutated_wholesale: the invariant holds after a
send_request call on the sample cache that ends in a connection error. -/
theorem c7_cache_mutated_wholesale_witness :
    cacheWhole (sendRequest sampleState 200 (.connectionError "refused")
      "http://a.example" "key" "p" 0 64 (7/10) 60).state :=
  c7_cache_mutated_wholesale.2 sampleState 200 (.connectionError "refused")
    "http://a.example" "key" "p" 0 64 (7/10) 60
    (Or.inr ⟨sampleSession, 100, rfl, rfl⟩)

/-- C8: when the stripped api_url or the stripped api_key is empty, or the
cleaned api_url fails URL validation, send_request returns one of the two
input-error strings, makes no transport call, and leaves the cached session
state untouched. -/
theorem c8_rejected_inputs_no_effect
    (st : ClientState) (now : Rat) (outcome : TransportOutcome)
    (apiUrl apiKey prompt : String) (seed maxTokens : Nat) (temperature : Rat)
    (timeoutSeconds : Nat)
    (h : pyRstripSlash (pyStrip apiUrl) = "" ∨ pyStrip apiKey = "" ∨
        validateUrl (pyRstripSlash (pyStrip apiUrl)) = false) :
    ((sendRequest st now outcome apiUrl apiKey prompt seed maxTokens temperature
        timeoutSeconds).output = .jstr errMissingInput ∨
      (sendRequest st now outcome apiUrl apiKey prompt seed maxTokens temperature
        timeoutSeconds).output = .jstr errBadUrl) ∧
    (sendRequest st now outcome apiUrl apiKey prompt seed maxTokens temperature
      timeoutSeconds).state = st ∧
    (sendRequest st now outcome apiUrl apiKey prompt seed maxTokens temperature
      timeoutSeconds).calls = [] := by
  have hrej : ¬ inputsAccepted apiUrl apiKey := by
    rintro ⟨h1, h2, h3⟩
    rcases h with h | h | h
    · exact h1 h
    · exact h2 h
    · rw [h] at h3
      exact Bool.false_ne_true h3
  obtain ⟨hst, hcalls, hout⟩ := sendRequest_rejected st now outcome apiUrl apiKey prompt
    seed maxTokens temperature timeoutSeconds hrej
  exact ⟨hout, hst, hcalls⟩

/-- Witness for c8_rejected_inputs_no_effect: a whitespace-only api_url is
rejected with the missing-input error, no call, cache untouched. -/
theorem c8_rejected_inputs_no_effect_witness :
    ((sendRequest sampleState 200 .timeout "  " "key" "p" 0 64 (7/10) 60).output =
        .jstr errMissingInput ∨
      (sendRequest sampleState 200 .timeout "  " "key" "p" 0 64 (7/10) 60).output =
        .jstr errBadUrl) ∧
    (sendRequest sampleState 200 .timeout "  " "key" "p" 0 64 (7/10) 60).state =
      sampleState ∧
    (sendRequest sampleState 200 .timeout "  " "key" "p" 0 64 (7/10) 60).calls = [] :=
  c8_rejected_inputs_no_effect sampleState 200 .timeout "  " "key" "p" 0 64 (7/10) 60
    (Or.inl (by decide))

/-- C10: _validate_url accepts a string if and only if urlparse succeeds on
it with a non-empty scheme, a non-empty network location, and a scheme that
is exactly http or https; and whenever urlparse raises (the try/except at
src/nodes.py lines 108-116, live for unmatched or invalid bracketed hosts),
the validator returns false.  It is a total Boolean function of the input
and never raises. -/
theorem c10_validate_url_iff :
    (∀ url : String, validateUrl url = true ↔
      (∃ r, urlparse url = .ok r ∧ r.scheme ≠ "" ∧ r.netloc ≠ "" ∧
        (r.scheme = "http" ∨ r.scheme = "https")))
    ∧ (∀ (url e : String), urlparse url = .error e → validateUrl url = false) := by
  constructor
  · intro url
    cases hp : urlparse url with
    | error e => simp [validateUrl, hp]
    | ok r =>
        simp only [validateUrl, hp]
        by_cases h1 : r.scheme = ""
        · simp [h1]
        · by_cases h2 : r.netloc = ""
          · simp [h1, h2]
          · by_cases h3 : r.scheme = "http"
            · simp [h1, h2, h3]
            · by_cases h4 : r.scheme = "https"
              · simp [h1, h2, h4]
              · simp [h1, h2, h3, h4]
  · intro url e hp
    simp [validateUrl, hp]

/-- Witness for c10_validate_url_iff: the parser strips the tab, so the
validator accepts a URL with an embedded tab in the scheme; an unmatched
IPv6 bracket makes urlparse fail, so the validator rejects it through the
except branch. -/
theorem c10_validate_url_iff_witness :
    validateUrl "ht\ttp://x" = true ∧ validateUrl "http://[::1" = false :=
  ⟨(c10_validate_url_iff.1 "ht\ttp://x").mpr
      ⟨{ scheme := "http", netloc := "x", tail := "" }, rfl, by decide, by decide,
        Or.inl rfl⟩,
    c10_validate_url_iff.2 "http://[::1" "Invalid IPv6 URL" rfl⟩

theorem handleResponse_200 (text : String) (jres : Except String JsonVal) :
    handleResponse 200 text jres = handle200 jres := rfl

theorem handleResponse_non200 (status : Nat) (text : String)
    (jres : Except String JsonVal) (h : status ≠ 200) :
    ∃ s, handleResponse status text jres = .jstr s := by
  unfold handleResponse
  rw [if_neg h]
  split_ifs <;> exact ⟨_, rfl⟩

theorem handle200_empty_result (fields : List (String × JsonVal))
    (h : List.lookup "result" fields = none ∨
      List.lookup "result" fields = some (.jstr "")) :
    handle200 (.ok (.jobj fields)) = .jstr warnEmptyResult := by
  rcases h with h | h <;> simp [handle200, jsonGet, h, pyTruthy]

theorem handle200_string_result (fields : List (String × JsonVal)) (s : String)
    (hs : s ≠ "") (h : List.lookup "result" fields = some (.jstr s)) :
    handle200 (.ok (.jobj fields)) = .jstr s := by
  simp [handle200, jsonGet, h, pyTruthy, hs, pyLen]

theorem adapterAttempts_le (cfg : RetryConfig) (method : String) :
    ∀ (statuses : List Nat) (left : Nat),
      adapterAttempts cfg method statuses left ≤ left + 1 := by
  intro statuses
  induction statuses with
  | nil => intro left; simp [adapterAttempts]
  | cons s rest ih =>
      intro left
      unfold adapterAttempts
      split_ifs with h
      · have := ih (left - 1)
        omega
      · omega

/-- C1 counterexample: a send_request call that ends in a timeout — a
transport-level failure — and one that ends in a non-2xx status (503) both
return with the cached session state fully intact (the pre-call session and
timestamp survive), refuting the claim that every transport-level failure
clears the cached session state before the call returns.  Only the
ConnectionError handler clears it (src/nodes.py lines 200-204). -/
theorem c1_counterexample :
    (sendRequest sampleState 200 .timeout "http://a.example" "key" "p" 0 64 (7/10)
      60).output = .jstr (errTimeout 60) ∧
    (sendRequest sampleState 200 .timeout "http://a.example" "key" "p" 0 64 (7/10)
      60).state = sampleState ∧
    (sendRequest sampleState 200 (.response 503 "unavailable" (.error "ValueError"))
      "http://a.example" "key" "p" 0 64 (7/10) 60).state = sampleState := by
  have hacc : inputsAccepted "http://a.example" "key" := by decide
  have hget : getSession sampleState 200 = (sampleSession, sampleState) :=
    getSession_reuse _ _ _ _ rfl rfl (by norm_num [sessionLifetime])
  refine ⟨rfl, ?_, ?_⟩
  · rw [sendRequest_accepted _ _ _ _ _ _ _ _ _ _ hacc]
    simp [transportPhase, hget]
  · rw [sendRequest_accepted _ _ _ _ _ _ _ _ _ _ hacc]
    simp [transportPhase, hget]

/-- C1 (amended): among the transport-level failures, only a connection error
invalidates the cached session state (both fields cleared before returning);
a timeout, any HTTP response status (including every non-2xx status) and any
other request exception leave the cache exactly as _get_session left it,
which still holds a live session. -/
theorem c1_only_connection_error_invalidates
    (st : ClientState) (now : Rat) (apiUrl apiKey prompt : String)
    (seed maxTokens : Nat) (temperature : Rat) (timeoutSeconds : Nat)
    (hacc : inputsAccepted apiUrl apiKey) :
    (∀ m, (sendRequest st now (.connectionError m) apiUrl apiKey prompt seed maxTokens
        temperature timeoutSeconds).state.session = none ∧
      (sendRequest st now (.connectionError m) apiUrl apiKey prompt seed maxTokens
        temperature timeoutSeconds).state.sessionCreatedAt = none)
    ∧ (sendRequest st now .timeout apiUrl apiKey prompt seed maxTokens temperature
        timeoutSeconds).state = (getSession st now).2
    ∧ (∀ status text jres, (sendRequest st now (.response status text jres) apiUrl
        apiKey prompt seed maxTokens temperature timeoutSeconds).state =
        (getSession st now).2)
    ∧ (∀ m, (sendRequest st now (.requestFailure m) apiUrl apiKey prompt seed maxTokens
        temperature timeoutSeconds).state = (getSession st now).2)
    ∧ (∃ s, (getSession st now).2.session = some s) := by
  refine ⟨fun m => ?_, ?_, fun status text jres => ?_, fun m => ?_, ?_⟩
  · rw [sendRequest_accepted _ _ _ _ _ _ _ _ _ _ hacc]
    exact ⟨rfl, rfl⟩
  · rw [sendRequest_accepted _ _ _ _ _ _ _ _ _ _ hacc]
    rfl
  · rw [sendRequest_accepted _ _ _ _ _ _ _ _ _ _ hacc]
    rfl
  · rw [sendRequest_accepted _ _ _ _ _ _ _ _ _ _ hacc]
    rfl
  · obtain ⟨t, h1, _, _⟩ := getSession_result_fresh st now
    exact ⟨_, h1⟩

/-- Witness for c1_only_connection_error_invalidates at concrete inputs: a
timeout leaves the cache as _get_session left it; a connection error clears
the session field. -/
theorem c1_only_connection_error_invalidates_witness :
    (sendRequest sampleState 200 .timeout "http://a.example" "key" "p" 0 64 (7/10)
      60).state = (getSession sampleState 200).2 ∧
    (sendRequest sampleState 200 (.connectionError "refused") "http://a.example" "key"
      "p" 0 64 (7/10) 60).state.session = none :=
  ⟨(c1_only_connection_error_invalidates sampleState 200 "http://a.example" "key" "p"
      0 64 (7/10) 60 (by decide)).2.1,
    ((c1_only_connection_error_invalidates sampleState 200 "http://a.example" "key" "p"
      0 64 (7/10) 60 (by decide)).1 "refused").1⟩

/-- C3 counterexample: the session send_request uses mounts HTTPAdapters with
Retry(total=3, status_forcelist=[500,502,503,504], allowed_methods=["POST"])
(src/nodes.py lines 88-97), so although send_request itself calls
session.post once, a POST answered 500 on every attempt is transmitted four
times by the transport layer — the code does retry failed requests
automatically, refuting the claim. -/
theorem c3_counterexample :
    (sendRequest initState 0 (.response 500 "err" (.error "ValueError"))
      "http://a.example" "key" "p" 0 64 (7/10) 60).calls.length = 1 ∧
    (getSession initState 0).1.retries = defaultRetries ∧
    adapterAttempts defaultRetries "POST" [500, 500, 500, 500] defaultRetries.total = 4 :=
  ⟨rfl, rfl, by decide⟩

/-- C3 (amended): send_request itself issues at most one session.post call
per invocation (exactly one when the inputs pass validation) and contains no
retry loop, but every session _get_session hands out carries the
Retry(total=3, backoff_factor=0.3, status_forcelist=[500,502,503,504],
allowed_methods=["POST"]) adapters, so the transport layer automatically
retries those failures, up to four HTTP attempts in total; other failures
are not retried anywhere in the client. -/
theorem c3_single_post_with_adapter_retries :
    (∀ (st : ClientState) (now : Rat) (outcome : TransportOutcome)
        (apiUrl apiKey prompt : String) (seed maxTokens : Nat) (temperature : Rat)
        (timeoutSeconds : Nat),
        (sendRequest st now outcome apiUrl apiKey prompt seed maxTokens temperature
          timeoutSeconds).calls.length ≤ 1 ∧
        (inputsAccepted apiUrl apiKey →
          (sendRequest st now outcome apiUrl apiKey prompt seed maxTokens temperature
            timeoutSeconds).calls.length = 1))
    ∧ (∀ (st : ClientState) (now : Rat), sessionsWellFormed st →
        (getSession st now).1.retries = defaultRetries)
    ∧ (∀ statuses : List Nat,
        adapterAttempts defaultRetries "POST" statuses defaultRetries.total ≤ 4) := by
  refine ⟨?_, ?_, fun statuses => adapterAttempts_le _ _ statuses _⟩
  · intro st now outcome apiUrl apiKey prompt seed maxTokens temperature timeoutSeconds
    by_cases hacc : inputsAccepted apiUrl apiKey
    · rw [sendRequest_accepted _ _ _ _ _ _ _ _ _ _ hacc]
      cases outcome <;> exact ⟨le_refl 1, fun _ => rfl⟩
    · obtain ⟨_, hcalls, _⟩ := sendRequest_rejected st now outcome apiUrl apiKey prompt
        seed maxTokens temperature timeoutSeconds hacc
      rw [hcalls]
      exact ⟨Nat.zero_le 1, fun h => absurd h hacc⟩
  · intro st now hwf
    unfold getSession
    cases hs : st.session with
    | none => rfl
    | some s =>
        cases ht : st.sessionCreatedAt with
        | none => rfl
        | some t =>
            dsimp only
            split_ifs with h
            · rfl
            · exact hwf s hs

/-- Witness for c3_single_post_with_adapter_retries at concrete inputs:
exactly one session.post call for accepted inputs, and the session taken from
a well-formed cache carries the default retry adapters. -/
theorem c3_single_post_with_adapter_retries_witness :
    (sendRequest sampleState 200 .timeout "http://a.example" "key" "p" 0 64 (7/10)
      60).calls.length = 1 ∧
    (getSession sampleState 200).1.retries = defaultRetries :=
  ⟨(c3_single_post_with_adapter_retries.1 sampleState 200 .timeout "http://a.example"
      "key" "p" 0 64 (7/10) 60).2 (by decide),
    c3_single_post_with_adapter_retries.2.1 sampleState 200
      (fun s hs => by
        simp only [sampleState] at hs
        cases hs
        rfl)⟩

/-- C4 counterexample: the JSON body of the one request send_request issues
has exactly the keys prompt, seed, max_tokens, temperature — not the
client_pub/data envelope shape the claim asserts (neither key is present). -/
theorem c4_counterexample :
    ((sendRequest sampleState 200 .timeout "http://a.example" "key" "p" 7 64 (7/10)
      60).calls.map (fun r => (jsonFields r.body).map Prod.fst)) =
      [["prompt", "seed", "max_tokens", "temperature"]] ∧
    List.lookup "client_pub" (jsonFields (buildRequest "http://a.example" "key" "p" 7 64
      (7/10) 60).body) = none ∧
    List.lookup "data" (jsonFields (buildRequest "http://a.example" "key" "p" 7 64
      (7/10) 60).body) = none :=
  ⟨rfl, rfl, rfl⟩

/-- C4 (amended): every send_request call that reaches the transport issues
exactly the request built at src/nodes.py lines 139-153: the X-API-Key header
carries the stripped caller credential and the JSON body is exactly
\x7b prompt, seed, max_tokens, temperature \x7d; on a 200 response the body
is parsed as JSON and the non-empty string under the result key is returned
as the output. -/
theorem c4_request_shape
    (st : ClientState) (now : Rat) (outcome : TransportOutcome)
    (apiUrl apiKey prompt : String) (seed maxTokens : Nat) (temperature : Rat)
    (timeoutSeconds : Nat) (hacc : inputsAccepted apiUrl apiKey) :
    (sendRequest st now outcome apiUrl apiKey prompt seed maxTokens temperature
        timeoutSeconds).calls =
      [buildRequest (pyRstripSlash (pyStrip apiUrl)) (pyStrip apiKey) prompt seed
        maxTokens temperature timeoutSeconds]
    ∧ ("X-API-Key", pyStrip apiKey) ∈
      (buildRequest (pyRstripSlash (pyStrip apiUrl)) (pyStrip apiKey) prompt seed
        maxTokens temperature timeoutSeconds).headers
    ∧ (buildRequest (pyRstripSlash (pyStrip apiUrl)) (pyStrip apiKey) prompt seed
        maxTokens temperature timeoutSeconds).body =
      .jobj [("prompt", .jstr prompt), ("seed", .jnum seed),
             ("max_tokens", .jnum maxTokens), ("temperature", .jnum temperature)]
    ∧ (∀ (text : String) (fields : List (String × JsonVal)) (s : String), s ≠ "" →
        List.lookup "result" fields = some (.jstr s) →
        (sendRequest st now (.response 200 text (.ok (.jobj fields))) apiUrl apiKey
          prompt seed maxTokens temperature timeoutSeconds).output = .jstr s) := by
  refine ⟨?_, ?_, rfl, fun text fields s hs hl => ?_⟩
  · rw [sendRequest_accepted _ _ _ _ _ _ _ _ _ _ hacc]
    cases outcome <;> rfl
  · simp [buildRequest]
  · rw [sendRequest_accepted _ _ _ _ _ _ _ _ _ _ hacc]
    show handleResponse 200 text (.ok (.jobj fields)) = .jstr s
    rw [handleResponse_200]
    exact handle200_string_result fields s hs hl

/-- Witness for c4_request_shape at concrete inputs: the issued request calls
list, the header membership, and the extraction of a non-empty result. -/
theorem c4_request_shape_witness :
    ("X-API-Key", pyStrip "key") ∈
      (buildRequest (pyRstripSlash (pyStrip "http://a.example")) (pyStrip "key") "p" 0
        64 (7/10) 60).headers ∧
    (sendRequest sampleState 200 (.response 200 "" (.ok (.jobj [("result",
      .jstr "expanded")]))) "http://a.example" "key" "p" 0 64 (7/10) 60).output =
      .jstr "expanded" :=
  ⟨(c4_request_shape sampleState 200 .timeout "http://a.example" "key" "p" 0 64 (7/10)
      60 (by decide)).2.1,
    (c4_request_shape sampleState 200 (.response 200 "" (.ok (.jobj [("result",
      .jstr "expanded")]))) "http://a.example" "key" "p" 0 64 (7/10) 60
      (by decide)).2.2.2 "" [("result", .jstr "expanded")] "expanded" (by decide) rfl⟩

/-- C6 counterexample: send_request does not always return a string: when the
server answers 200 with JSON body whose result field is a non-empty array,
the code returns that array value itself (src/nodes.py line 179 returns
result.get('result','') unchanged), so the claim that every call returns a
human-readable string is refuted at this input. -/
theorem c6_counterexample :
    (sendRequest sampleState 200 (.response 200 "" (.ok (.jobj [("result",
      .jarr [.jnum 1])]))) "http://a.example" "key" "p" 0 64 (7/10) 60).output =
      .jarr [.jnum 1] ∧
    ∀ s, (sendRequest sampleState 200 (.response 200 "" (.ok (.jobj [("result",
      .jarr [.jnum 1])]))) "http://a.example" "key" "p" 0 64 (7/10) 60).output ≠
      .jstr s :=
  ⟨rfl, fun _ h => nomatch h⟩

/-- C6 (amended): for every combination of inputs and every transport
outcome, send_request returns a single value and never propagates an
exception (the embedding is a total function and every Python exception path
is caught and converted); that value is a human-readable string in every case
except one: a 200 response whose parsed JSON result value is truthy,
non-string and sized (a non-empty array or object) is returned as-is.
(A truthy unsized result value — a number or True — raises a TypeError in
the success print, which the outer handler converts to an Unexpected Error
string.) -/
theorem c6_string_output_or_passthrough :
    ∀ (st : ClientState) (now : Rat) (outcome : TransportOutcome)
      (apiUrl apiKey prompt : String) (seed maxTokens : Nat) (temperature : Rat)
      (timeoutSeconds : Nat),
      (∃ s, (sendRequest st now outcome apiUrl apiKey prompt seed maxTokens temperature
        timeoutSeconds).output = .jstr s) ∨
      (∃ text fields v, outcome = .response 200 text (.ok (.jobj fields)) ∧
        List.lookup "result" fields = some v ∧ pyTruthy v = true ∧
        (pyLen v).isSome = true ∧
        (sendRequest st now outcome apiUrl apiKey prompt seed maxTokens temperature
          timeoutSeconds).output = v) := by
  intro st now outcome apiUrl apiKey prompt seed maxTokens temperature timeoutSeconds
  by_cases hacc : inputsAccepted apiUrl apiKey
  · rw [sendRequest_accepted _ _ _ _ _ _ _ _ _ _ hacc]
    cases outcome with
    | timeout => exact Or.inl ⟨_, rfl⟩
    | connectionError m => exact Or.inl ⟨_, rfl⟩
    | requestFailure m => exact Or.inl ⟨_, rfl⟩
    | unexpectedFailure m => exact Or.inl ⟨_, rfl⟩
    | response status text jres =>
        by_cases h200 : status = 200
        · subst h200
          cases jres with
          | error e => exact Or.inl ⟨_, rfl⟩
          | ok j =>
              cases j with
              | jobj fields =>
                  show (∃ s, handleResponse 200 text (.ok (.jobj fields)) = .jstr s) ∨ _
                  rw [handleResponse_200]
                  cases hl : List.lookup "result" fields with
                  | none =>
                      exact Or.inl ⟨warnEmptyResult, by
                        simp [handle200, jsonGet, hl, pyTruthy]⟩
                  | some v =>
                      cases htr : pyTruthy v with
                      | false =>
                          exact Or.inl ⟨warnEmptyResult, by
                            simp [handle200, jsonGet, hl, htr]⟩
                      | true =>
                          cases hlen : pyLen v with
                          | none =>
                              exact Or.inl ⟨errUnexpected lenTypeErrText, by
                                simp [handle200, jsonGet, hl, htr, hlen]⟩
                          | some n =>
                              refine Or.inr ⟨text, fields, v, rfl, hl, htr, by
                                rw [hlen]; rfl, by
                                simp [transportPhase, handleResponse, handle200,
                                  jsonGet, hl, htr, hlen]⟩
              | jnull => exact Or.inl ⟨_, rfl⟩
              | jbool b => exact Or.inl ⟨_, rfl⟩
              | jnum q => exact Or.inl ⟨_, rfl⟩
              | jstr sv => exact Or.inl ⟨_, rfl⟩
              | jarr xs => exact Or.inl ⟨_, rfl⟩
        · obtain ⟨s, hres⟩ := handleResponse_non200 status text jres h200
          exact Or.inl ⟨s, hres⟩
  · obtain ⟨_, _, hout⟩ := sendRequest_rejected st now outcome apiUrl apiKey prompt seed
      maxTokens temperature timeoutSeconds hacc
    rcases hout with h | h
    · exact Or.inl ⟨_, h⟩
    · exact Or.inl ⟨_, h⟩

/-- C9: on a 200 response whose JSON body lacks a result field or carries an
empty-string result, send_request returns the empty-response warning string,
never the empty text; it returns the server text itself exactly when result
is present and a non-empty string. -/
theorem c9_empty_result_warning
    (st : ClientState) (now : Rat) (apiUrl apiKey prompt : String)
    (seed maxTokens : Nat) (temperature : Rat) (timeoutSeconds : Nat)
    (text : String) (fields : List (String × JsonVal))
    (hacc : inputsAccepted apiUrl apiKey) :
    ((List.lookup "result" fields = none ∨
        List.lookup "result" fields = some (.jstr "")) →
      (sendRequest st now (.response 200 text (.ok (.jobj fields))) apiUrl apiKey
        prompt seed maxTokens temperature timeoutSeconds).output =
        .jstr warnEmptyResult)
    ∧ (∀ s, s ≠ "" → List.lookup "result" fields = some (.jstr s) →
      (sendRequest st now (.response 200 text (.ok (.jobj fields))) apiUrl apiKey
        prompt seed maxTokens temperature timeoutSeconds).output = .jstr s) := by
  constructor
  · intro h
    rw [sendRequest_accepted _ _ _ _ _ _ _ _ _ _ hacc]
    show handleResponse 200 text (.ok (.jobj fields)) = .jstr warnEmptyResult
    rw [handleResponse_200]
    exact handle200_empty_result fields h
  · intro s hs hl
    rw [sendRequest_accepted _ _ _ _ _ _ _ _ _ _ hacc]
    show handleResponse 200 text (.ok (.jobj fields)) = .jstr s
    rw [handleResponse_200]
    exact handle200_string_result fields s hs hl

/-- Witness for c9_empty_result_warning at concrete inputs: a missing result
field yields the warning string, a non-empty result is returned verbatim. -/
theorem c9_empty_result_warning_witness :
    (sendRequest sampleState 200 (.response 200 "" (.ok (.jobj [("other",
      .jstr "x")]))) "http://a.example" "key" "p" 0 64 (7/10) 60).output =
      .jstr warnEmptyResult ∧
    (sendRequest sampleState 200 (.response 200 "" (.ok (.jobj [("result",
      .jstr "ok")]))) "http://a.example" "key" "p" 0 64 (7/10) 60).output =
      .jstr "ok" :=
  ⟨(c9_empty_result_warning sampleState 200 "http://a.example" "key" "p" 0 64 (7/10) 60
      "" [("other", .jstr "x")] (by decide)).1 (Or.inl rfl),
    (c9_empty_result_warning sampleState 200 "http://a.example" "key" "p" 0 64 (7/10) 60
      "" [("result", .jstr "ok")] (by decide)).2 "ok" (by decide) rfl⟩

/-! ## Codec lemmas -/

theorem varEnc_lt (n : Nat) : ∀ b ∈ varEnc n, b < 256 := by
  induction n using Nat.strong_induction_on with
  | _ n ih =>
      intro b hb
      rw [varEnc] at hb
      split_ifs at hb with h
      · simp at hb
        omega
      · rcases List.mem_cons.mp hb with hb | hb
        · omega
        · exact ih (n / 128) (Nat.div_lt_self (by omega) (by omega)) b hb

theorem varDec_varEnc (n : Nat) : ∀ rest, varDec (varEnc n ++ rest) = some (n, rest) := by
  induction n using Nat.strong_induction_on with
  | _ n ih =>
      intro rest
      rw [varEnc]
      split_ifs with h
      · simp [varDec, h]
      · rw [List.cons_append, varDec]
        have h128 : ¬ (n % 128 + 128 < 128) := by omega
        rw [if_neg h128, ih (n / 128) (Nat.div_lt_self (by omega) (by omega)) rest]
        dsimp only
        have : n / 128 * 128 + (n % 128 + 128 - 128) = n := by omega
        rw [this]

theorem charsEnc_lt (cs : List Char) : ∀ b ∈ charsEnc cs, b < 256 := by
  induction cs with
  | nil => intro b hb; simp [charsEnc] at hb
  | cons c cs ih =>
      intro b hb
      rw [charsEnc] at hb
      rcases List.mem_append.mp hb with hb | hb
      · exact varEnc_lt _ b hb
      · exact ih b hb

theorem charsDec_charsEnc (cs : List Char) :
    ∀ rest, charsDec cs.length (charsEnc cs ++ rest) = some (cs, rest) := by
  induction cs with
  | nil => intro rest; simp [charsEnc, charsDec]
  | cons c cs ih =>
      intro rest
      rw [charsEnc, List.append_assoc, List.length_cons, charsDec,
        varDec_varEnc c.toNat (charsEnc cs ++ rest)]
      dsimp only
      rw [ih rest]
      dsimp only
      rw [Char.ofNat_toNat]

theorem strEnc_lt (s : String) : ∀ b ∈ strEnc s, b < 256 := by
  intro b hb
  rw [strEnc] at hb
  rcases List.mem_append.mp hb with hb | hb
  · exact varEnc_lt _ b hb
  · exact charsEnc_lt _ b hb

theorem strDec_strEnc (s : String) :
    ∀ rest, strDec (strEnc s ++ rest) = some (s, rest) := by
  intro rest
  rw [strEnc, List.append_assoc, strDec,
    varDec_varEnc s.data.length (charsEnc s.data ++ rest)]
  dsimp only
  rw [charsDec_charsEnc s.data rest]

theorem optStrEnc_lt (o : Option String) : ∀ b ∈ optStrEnc o, b < 256 := by
  intro b hb
  cases o with
  | none => simp [optStrEnc] at hb; omega
  | some s =>
      rw [optStrEnc] at hb
      rcases List.mem_cons.mp hb with hb | hb
      · omega
      · exact strEnc_lt s b hb

theorem optStrDec_optStrEnc (o : Option String) :
    ∀ rest, optStrDec (optStrEnc o ++ rest) = some (o, rest) := by
  intro rest
  cases o with
  | none => rfl
  | some s => rw [optStrEnc, List.cons_append, optStrDec, strDec_strEnc s rest]

theorem intEnc_lt (i : Int) : ∀ b ∈ intEnc i, b < 256 := by
  intro b hb
  cases i with
  | ofNat n =>
      rw [intEnc] at hb
      rcases List.mem_cons.mp hb with hb | hb
      · omega
      · exact varEnc_lt _ b hb
  | negSucc n =>
      rw [intEnc] at hb
      rcases List.mem_cons.mp hb with hb | hb
      · omega
      · exact varEnc_lt _ b hb

theorem intDec_intEnc (i : Int) :
    ∀ rest, intDec (intEnc i ++ rest) = some (i, rest) := by
  intro rest
  cases i with
  | ofNat n => rw [intEnc, List.cons_append, intDec, varDec_varEnc n rest]
  | negSucc n => rw [intEnc, List.cons_append, intDec, varDec_varEnc n rest]

theorem ratEnc_lt (q : Rat) : ∀ b ∈ ratEnc q, b < 256 := by
  intro b hb
  rw [ratEnc] at hb
  rcases List.mem_append.mp hb with hb | hb
  · exact intEnc_lt _ b hb
  · exact varEnc_lt _ b hb

theorem ratDec_ratEnc (q : Rat) :
    ∀ rest, ratDec (ratEnc q ++ rest) = some (q, rest) := by
  intro rest
  rw [ratEnc, List.append_assoc, ratDec, intDec_intEnc q.num (varEnc q.den ++ rest)]
  dsimp only
  rw [varDec_varEnc q.den rest]
  dsimp only
  rw [Rat.mkRat_self]

theorem serialize_lt (m : RequestPayload) : ∀ b ∈ serialize m, b < 256 := by
  intro b hb
  rw [serialize] at hb
  rcases List.mem_append.mp hb with hb | hb
  · rcases List.mem_append.mp hb with hb | hb
    · rcases List.mem_append.mp hb with hb | hb
      · rcases List.mem_append.mp hb with hb | hb
        · exact optStrEnc_lt _ b hb
        · exact strEnc_lt _ b hb
      · exact varEnc_lt _ b hb
    · exact varEnc_lt _ b hb
  · exact ratEnc_lt _ b hb

theorem deserialize_serialize (m : RequestPayload) :
    deserialize (serialize m) = some m := by
  obtain ⟨sp, p, seed, mt, t⟩ := m
  show deserialize (optStrEnc sp ++ strEnc p ++ varEnc seed ++ varEnc mt ++ ratEnc t) =
    some ⟨sp, p, seed, mt, t⟩
  rw [List.append_assoc, List.append_assoc, List.append_assoc]
  rw [deserialize, optStrDec_optStrEnc sp]
  dsimp only
  rw [strDec_strEnc p]
  dsimp only
  rw [varDec_varEnc seed]
  dsimp only
  rw [varDec_varEnc mt]
  dsimp only
  have hr := ratDec_ratEnc t []
  rw [List.append_nil] at hr
  rw [hr]
  rfl

theorem take_runLen (b : Nat) : ∀ (bs : List Nat) (k : Nat), k ≤ runLen b bs →
    List.replicate k b ++ bs.drop k = bs := by
  intro bs
  induction bs with
  | nil =>
      intro k hk
      rw [runLen] at hk
      interval_cases k
      rfl
  | cons x xs ih =>
      intro k hk
      cases k with
      | zero => simp
      | succ k2 =>
          rw [runLen] at hk
          split_ifs at hk with hx
          · subst hx
            rw [List.replicate_succ, List.cons_append, List.drop_succ_cons, ih k2 (by omega)]
          · omega

theorem rleEncode_lt_aux : ∀ (n : Nat) (l : List Nat), l.length ≤ n →
    (∀ x ∈ l, x < 256) → ∀ y ∈ rleEncode l, y < 256 := by
  intro n
  induction n with
  | zero =>
      intro l hl hx y hy
      have hnil : l = [] := List.length_eq_zero.mp (by omega)
      subst hnil
      simp [rleEncode] at hy
  | succ n ih =>
      intro l hl hx y hy
      cases l with
      | nil => simp [rleEncode] at hy
      | cons b bs =>
          rw [rleEncode] at hy
          rcases List.mem_cons.mp hy with hy | hy
          · have := Nat.min_le_left 254 (runLen b bs)
            omega
          · rcases List.mem_cons.mp hy with hy | hy
            · subst hy
              exact hx y (by simp)
            · refine ih (bs.drop (min 254 (runLen b bs))) ?_ ?_ y hy
              · have := List.length_drop (min 254 (runLen b bs)) bs
                simp at hl ⊢
                omega
              · intro x hxm
                exact hx x (List.mem_cons_of_mem b (List.mem_of_mem_drop hxm))

theorem rleEncode_lt (l : List Nat) (h : ∀ x ∈ l, x < 256) :
    ∀ y ∈ rleEncode l, y < 256 :=
  rleEncode_lt_aux l.length l (le_refl _) h

theorem rleDecode_rleEncode_aux : ∀ (n : Nat) (l : List Nat), l.length ≤ n →
    rleDecode (rleEncode l) = some l := by
  intro n
  induction n with
  | zero =>
      intro l hl
      have hnil : l = [] := List.length_eq_zero.mp (by omega)
      subst hnil
      simp [rleEncode, rleDecode]
  | succ n ih =>
      intro l hl
      cases l with
      | nil => simp [rleEncode, rleDecode]
      | cons b bs =>
          rw [rleEncode]
          rw [rleDecode]
          rw [if_neg (Nat.succ_ne_zero _)]
          rw [ih (bs.drop (min 254 (runLen b bs))) (by
            have := List.length_drop (min 254 (runLen b bs)) bs
            simp at hl ⊢
            omega)]
          dsimp only
          rw [List.replicate_succ, List.cons_append,
            take_runLen b bs (min 254 (runLen b bs)) (Nat.min_le_right _ _)]

theorem rleDecode_rleEncode (l : List Nat) : rleDecode (rleEncode l) = some l :=
  rleDecode_rleEncode_aux l.length l (le_refl _)

theorem streamXor_involutive (ks : Nat → Nat) :
    ∀ (i : Nat) (bs : List Nat), streamXor ks i (streamXor ks i bs) = bs := by
  intro i bs
  induction bs generalizing i with
  | nil => rfl
  | cons b bs ih => rw [streamXor, streamXor, Nat.xor_cancel_right, ih]

theorem streamXor_lt (ks : Nat → Nat) (hks : ∀ i, ks i < 256) :
    ∀ (i : Nat) (bs : List Nat), (∀ b ∈ bs, b < 256) →
      ∀ y ∈ streamXor ks i bs, y < 256 := by
  intro i bs
  induction bs generalizing i with
  | nil => intro _ y hy; simp [streamXor] at hy
  | cons b bs ih =>
      intro h y hy
      rw [streamXor] at hy
      rcases List.mem_cons.mp hy with hy | hy
      · subst hy
        exact Nat.xor_lt_two_pow (n := 8) (h b (by simp)) (hks i)
      · exact ih (i + 1) (fun x hx => h x (by simp [hx])) y hy

theorem ksByte_lt (key nonce : List Nat) (i : Nat) : ksByte key nonce i < 256 :=
  Nat.mod_lt _ (by omega)

theorem macTag_length (key nonce ct : List Nat) : (macTag key nonce ct).length = 16 := by
  simp [macTag]

theorem macTag_lt (key nonce ct : List Nat) : ∀ y ∈ macTag key nonce ct, y < 256 := by
  intro y hy
  rw [macTag] at hy
  obtain ⟨j, _, hj⟩ := List.mem_map.mp hy
  omega

theorem sxEnc_le_aux : ∀ (n : Nat) (bs : List Nat), bs.length ≤ n →
    (∀ b ∈ bs, b < 256) → ∀ v ∈ sxEnc bs, v ≤ 64 := by
  intro n
  induction n with
  | zero =>
      intro bs hl hb v hv
      have hnil : bs = [] := List.length_eq_zero.mp (by omega)
      subst hnil
      simp [sxEnc] at hv
  | succ n ih =>
      intro bs hl hb v hv
      match bs, hv with
      | [], hv => simp [sxEnc] at hv
      | [b0], hv =>
          have h0 : b0 < 256 := hb b0 (by simp)
          rw [sxEnc] at hv
          simp at hv
          omega
      | [b0, b1], hv =>
          have h0 : b0 < 256 := hb b0 (by simp)
          have h1 : b1 < 256 := hb b1 (by simp)
          rw [sxEnc] at hv
          simp at hv
          omega
      | b0 :: b1 :: b2 :: rest, hv =>
          have h0 : b0 < 256 := hb b0 (by simp)
          have h1 : b1 < 256 := hb b1 (by simp)
          have h2 : b2 < 256 := hb b2 (by simp)
          rw [sxEnc] at hv
          rcases List.mem_cons.mp hv with hv | hv
          · omega
          · rcases List.mem_cons.mp hv with hv | hv
            · omega
            · rcases List.mem_cons.mp hv with hv | hv
              · omega
              · rcases List.mem_cons.mp hv with hv | hv
                · omega
                · refine ih rest (by simp at hl ⊢; omega) ?_ v hv
                  intro x hx
                  exact hb x (by simp [hx])

theorem sxEnc_le (bs : List Nat) (h : ∀ b ∈ bs, b < 256) : ∀ v ∈ sxEnc bs, v ≤ 64 :=
  sxEnc_le_aux bs.length bs (le_refl _) h

theorem sxDec_sxEnc_aux : ∀ (n : Nat) (bs : List Nat), bs.length ≤ n →
    (∀ b ∈ bs, b < 256) → sxDec (sxEnc bs) = some bs := by
  intro n
  induction n with
  | zero =>
      intro bs hl hb
      have hnil : bs = [] := List.length_eq_zero.mp (by omega)
      subst hnil
      rfl
  | succ n ih =>
      intro bs hl hb
      match bs with
      | [] => rfl
      | [b0] =>
          have h0 : b0 < 256 := hb b0 (by simp)
          rw [sxEnc, sxDec]
          rw [if_pos (by omega : b0 / 4 < 64 ∧ b0 % 4 * 16 < 64)]
          rw [if_pos rfl]
          rw [if_pos (by refine ⟨rfl, rfl, by omega⟩)]
          have : b0 / 4 * 4 + b0 % 4 * 16 / 16 = b0 := by omega
          rw [this]
      | [b0, b1] =>
          have h0 : b0 < 256 := hb b0 (by simp)
          have h1 : b1 < 256 := hb b1 (by simp)
          rw [sxEnc, sxDec]
          rw [if_pos (by omega : b0 / 4 < 64 ∧ b0 % 4 * 16 + b1 / 16 < 64)]
          rw [if_neg (by omega : ¬ b1 % 16 * 4 = 64)]
          rw [if_pos (by omega : b1 % 16 * 4 < 64)]
          rw [if_pos rfl]
          rw [if_pos ⟨rfl, by omega⟩]
          have e0 : b0 / 4 * 4 + (b0 % 4 * 16 + b1 / 16) / 16 = b0 := by omega
          have e1 : (b0 % 4 * 16 + b1 / 16) % 16 * 16 + b1 % 16 * 4 / 4 = b1 := by omega
          rw [e0, e1]
      | b0 :: b1 :: b2 :: rest =>
          have h0 : b0 < 256 := hb b0 (by simp)
          have h1 : b1 < 256 := hb b1 (by simp)
          have h2 : b2 < 256 := hb b2 (by simp)
          rw [sxEnc, sxDec]
          rw [if_pos (by omega : b0 / 4 < 64 ∧ b0 % 4 * 16 + b1 / 16 < 64)]
          rw [if_neg (by omega : ¬ b1 % 16 * 4 + b2 / 64 = 64)]
          rw [if_pos (by omega : b1 % 16 * 4 + b2 / 64 < 64)]
          rw [if_neg (by omega : ¬ b2 % 64 = 64)]
          rw [if_pos (by omega : b2 % 64 < 64)]
          rw [ih rest (by simp at hl ⊢; omega) (fun x hx => hb x (by simp [hx]))]
          dsimp only
          have e0 : b0 / 4 * 4 + (b0 % 4 * 16 + b1 / 16) / 16 = b0 := by omega
          have e1 : (b0 % 4 * 16 + b1 / 16) % 16 * 16 + (b1 % 16 * 4 + b2 / 64) / 4 = b1 := by
            omega
          have e2 : (b1 % 16 * 4 + b2 / 64) % 4 * 64 + b2 % 64 = b2 := by omega
          rw [e0, e1, e2]

theorem sxDec_sxEnc (bs : List Nat) (h : ∀ b ∈ bs, b < 256) :
    sxDec (sxEnc bs) = some bs :=
  sxDec_sxEnc_aux bs.length bs (le_refl _) h

theorem padCharVal_padChar : ∀ v, v ≤ 64 → padCharVal (padChar v) = some v := by
  decide

theorem mapM_map_inverse {α β : Type} (f : β → Option α) (g : α → β) :
    ∀ (l : List α), (∀ x ∈ l, f (g x) = some x) → List.mapM f (l.map g) = some l := by
  intro l
  induction l with
  | nil => intro _; rfl
  | cons a l ih =>
      intro h
      rw [List.map_cons, List.mapM_cons, h a (by simp), ih (fun x hx => h x (by simp [hx]))]
      rfl

theorem b64decode_b64encode (bs : List Nat) (h : ∀ b ∈ bs, b < 256) :
    b64decode (b64encode bs) = some bs := by
  rw [b64encode, b64decode]
  show (((sxEnc bs).map padChar).mapM padCharVal).bind sxDec = some bs
  rw [mapM_map_inverse padCharVal padChar (sxEnc bs)
    (fun v hv => padCharVal_padChar v (sxEnc_le bs h v hv))]
  rw [Option.some_bind]
  exact sxDec_sxEnc bs h

theorem secureCodec_decode_encode (m : RequestPayload) (key nonce : List Nat)
    (hlen : nonce.length = 16) (hb : ∀ b ∈ nonce, b < 256) :
    SecureCodec.decode (SecureCodec.encode m key nonce) key = .ok m := by
  have hct : ∀ y ∈ streamXor (ksByte key nonce) 0 (rleEncode (serialize m)), y < 256 :=
    streamXor_lt _ (ksByte_lt key nonce) 0 _ (rleEncode_lt _ (serialize_lt m))
  have henv : ∀ b ∈ nonce ++
      (macTag key nonce (streamXor (ksByte key nonce) 0 (rleEncode (serialize m))) ++
        streamXor (ksByte key nonce) 0 (rleEncode (serialize m))), b < 256 := by
    intro b hb2
    rcases List.mem_append.mp hb2 with h2 | h2
    · exact hb b h2
    · rcases List.mem_append.mp h2 with h3 | h3
      · exact macTag_lt _ _ _ b h3
      · exact hct b h3
  have htake16 : ∀ rest : List Nat, (nonce ++ rest).take 16 = nonce := by
    intro rest
    rw [← hlen]
    exact List.take_left nonce rest
  have hdrop16 : ∀ rest : List Nat, (nonce ++ rest).drop 16 = rest := by
    intro rest
    rw [← hlen]
    exact List.drop_left nonce rest
  have htagtake : ∀ rest : List Nat,
      (macTag key nonce (streamXor (ksByte key nonce) 0 (rleEncode (serialize m))) ++
        rest).take 16 = macTag key nonce (streamXor (ksByte key nonce) 0
          (rleEncode (serialize m))) := by
    intro rest
    rw [← macTag_length key nonce (streamXor (ksByte key nonce) 0 (rleEncode (serialize m)))]
    exact List.take_left _ rest
  have htagdrop : ∀ rest : List Nat,
      (macTag key nonce (streamXor (ksByte key nonce) 0 (rleEncode (serialize m))) ++
        rest).drop 16 = rest := by
    intro rest
    rw [← macTag_length key nonce (streamXor (ksByte key nonce) 0 (rleEncode (serialize m)))]
    exact List.drop_left _ rest
  rw [SecureCodec.encode, SecureCodec.decode, List.append_assoc,
    b64decode_b64encode _ henv]
  dsimp only
  have hlen32 : ¬ (nonce ++
      (macTag key nonce (streamXor (ksByte key nonce) 0 (rleEncode (serialize m))) ++
        streamXor (ksByte key nonce) 0 (rleEncode (serialize m)))).length < 32 := by
    rw [List.length_append, List.length_append, hlen, macTag_length]
    omega
  rw [if_neg hlen32]
  rw [htake16, hdrop16, htagtake]
  have hdrop32 : (nonce ++
      (macTag key nonce (streamXor (ksByte key nonce) 0 (rleEncode (serialize m))) ++
        streamXor (ksByte key nonce) 0 (rleEncode (serialize m)))).drop 32 =
      streamXor (ksByte key nonce) 0 (rleEncode (serialize m)) := by
    have h1632 : (32 : Nat) = 16 + 16 := rfl
    rw [h1632, ← List.drop_drop, hdrop16, htagdrop]
  rw [hdrop32]
  rw [if_pos rfl]
  rw [streamXor_involutive, rleDecode_rleEncode]
  dsimp only
  rw [deserialize_serialize]

/-- C5: the secure codec round-trips — decoding the encoding of any plaintext
payload m under any key (with a well-formed 16-byte nonce) returns exactly m —
and decode fails rather than silently returning a corrupted value: an
envelope whose stored authentication tag differs from the tag recomputed over
key, nonce and ciphertext is rejected with AuthenticationFailed, and an
envelope too short to contain the 16-byte nonce and 16-byte tag is rejected
with MalformedEnvelope. -/
theorem c5_codec_roundtrip_and_auth :
    (∀ (m : RequestPayload) (key nonce : List Nat), nonce.length = 16 →
        (∀ b ∈ nonce, b < 256) →
        SecureCodec.decode (SecureCodec.encode m key nonce) key = .ok m)
    ∧ (∀ (wire : String) (key bytes : List Nat),
        b64decode wire = some bytes → ¬ bytes.length < 32 →
        macTag key (bytes.take 16) (bytes.drop 32) ≠ (bytes.drop 16).take 16 →
        SecureCodec.decode wire key = .error .authenticationFailed)
    ∧ (∀ (wire : String) (key bytes : List Nat),
        b64decode wire = some bytes → bytes.length < 32 →
        SecureCodec.decode wire key = .error .malformedEnvelope) := by
  refine ⟨secureCodec_decode_encode, ?_, ?_⟩
  · intro wire key bytes hdec h32 hne
    rw [SecureCodec.decode, hdec]
    dsimp only
    rw [if_neg h32, if_neg hne]
  · intro wire key bytes hdec h32
    rw [SecureCodec.decode, hdec]
    dsimp only
    rw [if_pos h32]

/-- Witness for c5_codec_roundtrip_and_auth: a concrete payload round-trips
under a concrete key and the all-zero nonce; an all-zero 33-byte envelope
fails tag verification; a 3-byte envelope is malformed. -/
theorem c5_codec_roundtrip_and_auth_witness :
    SecureCodec.decode (SecureCodec.encode samplePayload [1, 2]
      (List.replicate 16 0)) [1, 2] = .ok samplePayload ∧
    SecureCodec.decode (b64encode (List.replicate 33 0)) [1, 2] =
      .error .authenticationFailed ∧
    SecureCodec.decode (b64encode [0, 0, 0]) [1, 2] = .error .malformedEnvelope :=
  ⟨c5_codec_roundtrip_and_auth.1 samplePayload [1, 2] (List.replicate 16 0) (by decide)
      (by decide),
    c5_codec_roundtrip_and_auth.2.1 _ [1, 2] (List.replicate 33 0) (by decide)
      (by decide) (by decide),
    c5_codec_roundtrip_and_auth.2.2 _ [1, 2] [0, 0, 0] (by decide) (by decide)⟩
